import Mathlib

/-
Verification of the Sierpinski triangle chaos-game core: geometry,
viewport model, chaos-game engine, and animation controller, embedded
shallowly over the reals.  Machine floating-point numbers are modelled
as real numbers; `Math.random()` draws are modelled as explicit input
streams `ℕ → ℝ` with values in `[0, 1)`; the random vertex choice is an
explicit stream `ℕ → Fin 3`.
-/

noncomputable section

namespace Sierpinski

/-- A point in world coordinates, mirroring `interface Point {x, y}`. -/
structure Point where
  x : ℝ
  y : ℝ

/-- `interface Viewport {x, y, scale}`: world coordinates at the canvas
center, plus screen pixels per world unit. -/
structure Viewport where
  x : ℝ
  y : ℝ
  scale : ℝ

/-- The three fixed triangle vertices `VERTICES`:
`(0,0)`, `(1,0)`, `(0.5, Math.sqrt(0.75))`. -/
def VERTICES : Fin 3 → Point
  | 0 => ⟨0, 0⟩
  | 1 => ⟨1, 0⟩
  | 2 => ⟨0.5, Real.sqrt 0.75⟩

/-- `INITIAL_VIEWPORT_PADDING = 1.1`. -/
def INITIAL_VIEWPORT_PADDING : ℝ := 1.1

/-- `getInitialViewport(width, height)`: fit the triangle bounding box
into the canvas with 10% padding, centered on the bounding-box center. -/
def getInitialViewport (width height : ℝ) : Viewport :=
  let triangleWidth : ℝ := 1
  let triangleHeight : ℝ := Real.sqrt 0.75
  let triangleCenterX : ℝ := 0.5
  let triangleCenterY : ℝ := triangleHeight / 2
  let scaleX := width / (triangleWidth * INITIAL_VIEWPORT_PADDING)
  let scaleY := height / (triangleHeight * INITIAL_VIEWPORT_PADDING)
  ⟨triangleCenterX, triangleCenterY, min scaleX scaleY⟩

/-- `getInitialPoint()`: a random point inside the triangle by
barycentric sampling; the two `Math.random()` draws are the arguments. -/
def getInitialPoint (s0 t0 : ℝ) : Point :=
  let s := if s0 + t0 > 1 then 1 - s0 else s0
  let t := if s0 + t0 > 1 then 1 - t0 else t0
  ⟨(VERTICES 0).x * (1 - s - t) + (VERTICES 1).x * s + (VERTICES 2).x * t,
   (VERTICES 0).y * (1 - s - t) + (VERTICES 1).y * s + (VERTICES 2).y * t⟩

/-- One signed cross product of `isPointInTriangle`:
`(p.x - b.x) * (a.y - b.y) - (a.x - b.x) * (p.y - b.y)`. -/
def dsign (p a b : Point) : ℝ :=
  (p.x - b.x) * (a.y - b.y) - (a.x - b.x) * (p.y - b.y)

/-- `isPointInTriangle(p, [v1, v2, v3])`: not simultaneously a strictly
negative and a strictly positive edge cross product. -/
def isPointInTriangle (p v1 v2 v3 : Point) : Prop :=
  ¬((dsign p v1 v2 < 0 ∨ dsign p v2 v3 < 0 ∨ dsign p v3 v1 < 0) ∧
    (0 < dsign p v1 v2 ∨ 0 < dsign p v2 v3 ∨ 0 < dsign p v3 v1))

instance (p v1 v2 v3 : Point) : Decidable (isPointInTriangle p v1 v2 v3) := by
  unfold isPointInTriangle
  infer_instance

/-- The chaos-game step shared by `generateInstantly` and
`animateGeneration`: `nextPoint = ((current + target) / 2)` coordinatewise. -/
def stepPoint (current targetVertex : Point) : Point :=
  ⟨(current.x + targetVertex.x) / 2, (current.y + targetVertex.y) / 2⟩

/-- Membership in the convex hull of the three fixed vertices, expressed
by barycentric coordinates. -/
def inTriangleHull (p : Point) : Prop :=
  ∃ a b c : ℝ, 0 ≤ a ∧ 0 ≤ b ∧ 0 ≤ c ∧ a + b + c = 1 ∧
    p.x = a * (VERTICES 0).x + b * (VERTICES 1).x + c * (VERTICES 2).x ∧
    p.y = a * (VERTICES 0).y + b * (VERTICES 1).y + c * (VERTICES 2).y

/-- The world point under the mouse, as computed inline in `handleWheel`
(`mouseWorldX`, `mouseWorldY`); this is the screen-to-world transform. -/
def toWorld (vp : Viewport) (canvasW canvasH mouseX mouseY : ℝ) : Point :=
  ⟨(mouseX - canvasW / 2) / vp.scale + vp.x,
   -(mouseY - canvasH / 2) / vp.scale + vp.y⟩

/-- `handleWheel`: cursor-anchored multiplicative zoom.  `deltaY` is the
wheel delta; the zoom factor is `0.998 ^ deltaY` (real exponentiation). -/
def handleWheel (vp : Viewport) (canvasW canvasH mouseX mouseY deltaY : ℝ) :
    Viewport :=
  let mouseWorldX := (mouseX - canvasW / 2) / vp.scale + vp.x
  let mouseWorldY := -(mouseY - canvasH / 2) / vp.scale + vp.y
  let zoomFactor := (0.998 : ℝ) ^ deltaY
  let newScale := vp.scale * zoomFactor
  let newX := mouseWorldX - (mouseX - canvasW / 2) / newScale
  let newY := mouseWorldY + (mouseY - canvasH / 2) / newScale
  ⟨newX, newY, newScale⟩

/-- `handleMouseMove` drag panning: shift the viewport center by
`(-dx/scale, +dy/scale)`. -/
def handleMouseMove (vp : Viewport) (dx dy : ℝ) : Viewport :=
  ⟨vp.x - dx / vp.scale, vp.y + dy / vp.scale, vp.scale⟩

/-- The `isPointInView` closure of `findSeedPoint`. -/
def isPointInView (xMin xMax yMin yMax : ℝ) (p : Point) : Prop :=
  xMin ≤ p.x ∧ p.x ≤ xMax ∧ yMin ≤ p.y ∧ p.y ≤ yMax

instance (xMin xMax yMin yMax : ℝ) (p : Point) :
    Decidable (isPointInView xMin xMax yMin yMax p) := by
  unfold isPointInView
  infer_instance

/-- The candidate drawn at rejection-sampling attempt `i` inside the
visible world rectangle, consuming draws `r (2*i)` and `r (2*i+1)`. -/
def attemptDraw (r : ℕ → ℝ) (xMin yMin worldW worldH : ℝ) (i : ℕ) : Point :=
  ⟨xMin + r (2 * i) * worldW, yMin + r (2 * i + 1) * worldH⟩

/-- The bounded rejection-sampling loop of `findSeedPoint`: starting at
attempt `i` with `fuel` attempts left, return the first drawn candidate
that passes `isPointInTriangle`, or `none` when all are rejected. -/
def seedAttempt (r : ℕ → ℝ) (xMin yMin worldW worldH : ℝ) :
    ℕ → ℕ → Option Point
  | _, 0 => none
  | i, fuel + 1 =>
    let p := attemptDraw r xMin yMin worldW worldH i
    if isPointInTriangle p (VERTICES 0) (VERTICES 1) (VERTICES 2) then some p
    else seedAttempt r xMin yMin worldW worldH (i + 1) fuel

/-- `findSeedPoint(current)`: keep `current` when the point collection is
nonempty and `current` is in view; otherwise rejection-sample the visible
rectangle up to 100 times and fall back to `getInitialPoint`, which
consumes draws `r 200` and `r 201`. -/
def findSeedPoint (pointsLen : ℕ) (vp : Viewport) (canvasW canvasH : ℝ)
    (r : ℕ → ℝ) (current : Point) : Point :=
  let worldW := canvasW / vp.scale
  let worldH := canvasH / vp.scale
  let xMin := vp.x - worldW / 2
  let xMax := vp.x + worldW / 2
  let yMin := vp.y - worldH / 2
  let yMax := vp.y + worldH / 2
  if pointsLen = 0 ∨ ¬isPointInView xMin xMax yMin yMax current then
    match seedAttempt r xMin yMin worldW worldH 0 100 with
    | some p => p
    | none => getInitialPoint (r 200) (r 201)
  else current

/-- The `for` loop of `generateInstantly`, started at loop index `i` from
`current` with `n` iterations left: returns the final current point and
the list of generated points in generation order. -/
def genLoop (choice : ℕ → Fin 3) : Point → ℕ → ℕ → Point × List Point
  | current, _, 0 => (current, [])
  | current, i, n + 1 =>
    let targetVertex := VERTICES (choice i)
    let nextPoint := stepPoint current targetVertex
    let rest := genLoop choice nextPoint (i + 1) n
    (rest.1, nextPoint :: rest.2)

/-- The chaos-game orbit: `chaosIter choice seed k` is the current point
after `k` steps, where step `k` moves toward `VERTICES (choice k)`. -/
def chaosIter (choice : ℕ → Fin 3) (seed : Point) : ℕ → Point
  | 0 => seed
  | k + 1 => stepPoint (chaosIter choice seed k) (VERTICES (choice k))

/-- The list of the first `n` generated points of the orbit. -/
def trajPoints (choice : ℕ → Fin 3) (seed : Point) (n : ℕ) : List Point :=
  (List.range n).map fun k => chaosIter choice seed (k + 1)

/-- `generateInstantly`: seed via `findSeedPoint`, run the loop
`pointsPerClick` times, append all new points as one update, and persist
the final current point.  Returns (new point collection, new current). -/
def generateInstantly (points : List Point) (current0 : Point)
    (vp : Viewport) (canvasW canvasH : ℝ) (r : ℕ → ℝ) (choice : ℕ → Fin 3)
    (pointsPerClick : ℕ) : List Point × Point :=
  let seed := findSeedPoint points.length vp canvasW canvasH r current0
  let res := genLoop choice seed 0 pointsPerClick
  (points ++ res.2, res.1)

/-- `interface AnimationStep`. -/
structure AnimationStep where
  currentPoint : Point
  targetVertex : Point
  newPoint : Point

/-- `interface HighlightedVertex`; `life` is a JS number used as an
integer countdown. -/
structure HighlightedVertex where
  vertex : Point
  life : ℤ

/-- The app state touched by the animation controller and reset:
`points`, `currentPointRef`, `viewport`, `isGenerating`, `animationStep`,
`highlightedVertices`, plus the `localCurrent` closure variable of
`animateGeneration` and `pending`, the not-yet-fired scheduled tick count
held by `animationTimeoutRef`. -/
structure AppState where
  points : List Point
  currentPointRef : Point
  viewport : Viewport
  isGenerating : Bool
  animationStep : Option AnimationStep
  highlightedVertices : List HighlightedVertex
  localCurrent : Point
  pending : Option ℕ

/-- The highlight-queue update of one animation tick: prepend the fresh
vertex with `life = 5`, decrement every entry, prune entries at
`life ≤ 0`. -/
def highlightUpdate (targetVertex : Point) (prev : List HighlightedVertex) :
    List HighlightedVertex :=
  ((⟨targetVertex, 5⟩ :: prev).map fun h => ⟨h.vertex, h.life - 1⟩).filter
    fun h => 0 < h.life

/-- The `step(count)` callback inside `animateGeneration`: at
`count ≥ 100` finish the run (back to idle, clear transients, persist the
local current point); otherwise perform one chaos-game step, publish the
animation step, update highlights, append the new point, advance the
local current point, and schedule `step(count + 1)`. -/
def animTick (choice : ℕ → Fin 3) (count : ℕ) (s : AppState) : AppState :=
  if 100 ≤ count then
    { s with isGenerating := false, animationStep := none,
             highlightedVertices := [], currentPointRef := s.localCurrent }
  else
    let targetVertex := VERTICES (choice count)
    let nextPoint := stepPoint s.localCurrent targetVertex
    { s with animationStep := some ⟨s.localCurrent, targetVertex, nextPoint⟩,
             highlightedVertices :=
               highlightUpdate targetVertex s.highlightedVertices,
             points := s.points ++ [nextPoint],
             localCurrent := nextPoint,
             pending := some (count + 1) }

/-- The event loop firing the pending scheduled tick, if any; firing
consumes the schedule before the callback body runs. -/
def fireTick (choice : ℕ → Fin 3) (s : AppState) : AppState :=
  match s.pending with
  | none => s
  | some c => animTick choice c { s with pending := none }

/-- Run the self-rescheduling tick chain from `step(count)` to
completion: each scheduled tick is consumed when it fires. -/
def runFrom (choice : ℕ → Fin 3) (count : ℕ) (s : AppState) : AppState :=
  if 100 ≤ count then animTick choice count s
  else runFrom choice (count + 1) { animTick choice count s with pending := none }
termination_by 100 - count
decreasing_by omega

/-- `animateGeneration`: mark generating, clear the stale animation step,
seed via `findSeedPoint`, and run the tick chain from `step(0)`. -/
def animateGeneration (choice : ℕ → Fin 3) (canvasW canvasH : ℝ)
    (r : ℕ → ℝ) (s : AppState) : AppState :=
  let s1 := { s with isGenerating := true, animationStep := none }
  let seed := findSeedPoint s.points.length s.viewport canvasW canvasH r
    s.currentPointRef
  runFrom choice 0 { s1 with localCurrent := seed }

/-- The highlight queue after `n` animation ticks starting from an empty
queue, tick `k` highlighting `VERTICES (choice k)`. -/
def highlightsAfter (choice : ℕ → Fin 3) : ℕ → List HighlightedVertex
  | 0 => []
  | n + 1 => highlightUpdate (VERTICES (choice n)) (highlightsAfter choice n)

/-- The timeout-clearing prologue of `reset` (the controller's
`cancel()`): drop the pending scheduled tick when there is one. -/
def cancel (s : AppState) : AppState :=
  if s.pending = none then s else { s with pending := none }

/-- `reset()`: cancel the pending tick first, then recompute the initial
viewport (only for a positive-size canvas), clear the point collection,
redraw a random seed (draws `s0`, `t0`), and clear all transient
animation state. -/
def reset (s : AppState) (canvasW canvasH s0 t0 : ℝ) : AppState :=
  let s1 := cancel s
  let s2 :=
    if 0 < canvasW ∧ 0 < canvasH then
      { s1 with viewport := getInitialViewport canvasW canvasH }
    else s1
  { s2 with points := [], currentPointRef := getInitialPoint s0 t0,
            isGenerating := false, animationStep := none,
            highlightedVertices := [] }

/-- C1: for every current point and every chosen target vertex among the
three fixed vertices, the chaos-game step returns exactly the midpoint
`0.5 * currentPoint + 0.5 * targetVertex`, and if the current point lies
in the triangle's convex hull then so does the new point. -/
theorem step_midpoint_and_hull (c : Point) (i : Fin 3) :
    stepPoint c (VERTICES i) =
      ⟨0.5 * c.x + 0.5 * (VERTICES i).x, 0.5 * c.y + 0.5 * (VERTICES i).y⟩ ∧
    (inTriangleHull c → inTriangleHull (stepPoint c (VERTICES i))) := by
  constructor
  · simp only [stepPoint, Point.mk.injEq]
    constructor <;> ring
  · rintro ⟨a, b, c', ha, hb, hc, habc, hx, hy⟩
    simp only [VERTICES] at hx hy
    fin_cases i
    · refine ⟨a / 2 + 1 / 2, b / 2, c' / 2, by linarith, by linarith,
        by linarith, by linarith, ?_, ?_⟩ <;> simp only [stepPoint, VERTICES]
      · linear_combination hx / 2
      · linear_combination hy / 2
    · refine ⟨a / 2, b / 2 + 1 / 2, c' / 2, by linarith, by linarith,
        by linarith, by linarith, ?_, ?_⟩ <;> simp only [stepPoint, VERTICES]
      · linear_combination hx / 2
      · linear_combination hy / 2
    · refine ⟨a / 2, b / 2, c' / 2 + 1 / 2, by linarith, by linarith,
        by linarith, by linarith, ?_, ?_⟩ <;> simp only [stepPoint, VERTICES]
      · linear_combination hx / 2
      · linear_combination hy / 2

/-- Witness for C1 at the concrete current point `(0,0)` and vertex 0. -/
theorem step_midpoint_and_hull_witness :
    inTriangleHull ⟨0, 0⟩ ∧
      (stepPoint ⟨0, 0⟩ (VERTICES 0) =
        ⟨0.5 * (Point.mk 0 0).x + 0.5 * (VERTICES 0).x,
         0.5 * (Point.mk 0 0).y + 0.5 * (VERTICES 0).y⟩ ∧
       inTriangleHull (stepPoint ⟨0, 0⟩ (VERTICES 0))) := by
  have h0 : inTriangleHull ⟨0, 0⟩ :=
    ⟨1, 0, 0, by norm_num, by norm_num, by norm_num, by norm_num,
      by simp [VERTICES], by simp [VERTICES]⟩
  exact ⟨h0, (step_midpoint_and_hull ⟨0, 0⟩ 0).1,
    (step_midpoint_and_hull ⟨0, 0⟩ 0).2 h0⟩

/-- Reversing an edge negates its signed cross product. -/
theorem dsign_rev (p a b : Point) : dsign p a b = -dsign p b a := by
  unfold dsign
  ring

/-- C8: `isPointInTriangle` holds iff the three edge cross products are not
simultaneously strictly negative and strictly positive; it is invariant
under every permutation of the three vertices; it holds at each fixed
vertex and at the centroid `(0.5, √0.75 / 3)`, and fails at `(-1, -1)`. -/
theorem isPointInTriangle_spec :
    (∀ p v1 v2 v3 : Point, isPointInTriangle p v1 v2 v3 ↔
      ¬((dsign p v1 v2 < 0 ∨ dsign p v2 v3 < 0 ∨ dsign p v3 v1 < 0) ∧
        (0 < dsign p v1 v2 ∨ 0 < dsign p v2 v3 ∨ 0 < dsign p v3 v1))) ∧
    (∀ p a b c : Point,
      (isPointInTriangle p b c a ↔ isPointInTriangle p a b c) ∧
      (isPointInTriangle p c a b ↔ isPointInTriangle p a b c) ∧
      (isPointInTriangle p b a c ↔ isPointInTriangle p a b c) ∧
      (isPointInTriangle p a c b ↔ isPointInTriangle p a b c) ∧
      (isPointInTriangle p c b a ↔ isPointInTriangle p a b c)) ∧
    isPointInTriangle (VERTICES 0) (VERTICES 0) (VERTICES 1) (VERTICES 2) ∧
    isPointInTriangle (VERTICES 1) (VERTICES 0) (VERTICES 1) (VERTICES 2) ∧
    isPointInTriangle (VERTICES 2) (VERTICES 0) (VERTICES 1) (VERTICES 2) ∧
    isPointInTriangle ⟨0.5, Real.sqrt 0.75 / 3⟩
      (VERTICES 0) (VERTICES 1) (VERTICES 2) ∧
    ¬isPointInTriangle ⟨-1, -1⟩ (VERTICES 0) (VERTICES 1) (VERTICES 2) := by
  have hh : (0 : ℝ) ≤ Real.sqrt 0.75 := Real.sqrt_nonneg _
  refine ⟨fun p v1 v2 v3 => Iff.rfl, fun p a b c => ?_, ?_, ?_, ?_, ?_, ?_⟩
  · refine ⟨?_, ?_, ?_, ?_, ?_⟩ <;> unfold isPointInTriangle
    · tauto
    · tauto
    · rw [dsign_rev p b a, dsign_rev p a c, dsign_rev p c b]
      simp only [neg_lt_zero, neg_pos]
      tauto
    · rw [dsign_rev p a c, dsign_rev p c b, dsign_rev p b a]
      simp only [neg_lt_zero, neg_pos]
      tauto
    · rw [dsign_rev p c b, dsign_rev p b a, dsign_rev p a c]
      simp only [neg_lt_zero, neg_pos]
      tauto
  · intro hc
    rcases hc.1 with h1 | h1 | h1 <;>
      (simp only [dsign, VERTICES] at h1; nlinarith)
  · intro hc
    rcases hc.1 with h1 | h1 | h1 <;>
      (simp only [dsign, VERTICES] at h1; nlinarith)
  · intro hc
    rcases hc.1 with h1 | h1 | h1 <;>
      (simp only [dsign, VERTICES] at h1; nlinarith)
  · intro hc
    rcases hc.1 with h1 | h1 | h1 <;>
      (simp only [dsign, VERTICES] at h1; nlinarith)
  · intro hin
    refine hin ⟨Or.inl ?_, Or.inr (Or.inl ?_)⟩ <;>
      (simp only [dsign, VERTICES]; nlinarith)

/-- `0 < √0.75`. -/
theorem sqrt75_pos : (0 : ℝ) < Real.sqrt 0.75 :=
  Real.sqrt_pos.mpr (by norm_num)

/-- `√0.75 < 0.8661`. -/
theorem sqrt75_ub : Real.sqrt 0.75 < 0.8661 :=
  (Real.sqrt_lt' (by norm_num)).mpr (by norm_num)

/-- `0.866 < √0.75`. -/
theorem sqrt75_lb : (0.866 : ℝ) < Real.sqrt 0.75 :=
  (Real.lt_sqrt (by norm_num)).mpr (by norm_num)

/-- `0.75 ≤ √0.75`. -/
theorem sqrt75_ge : (0.75 : ℝ) ≤ Real.sqrt 0.75 :=
  le_of_lt ((Real.lt_sqrt (by norm_num)).mpr (by norm_num))

/-- C5 counterexample: for an 800×600 canvas the initial scale is
`600 / (√0.75 · 1.1)`, which lies strictly between 629 and 630 — more
than 62 above the claimed value `566.67`. -/
theorem getInitialViewport_example_counterexample :
    (getInitialViewport 800 600).scale = 600 / (Real.sqrt 0.75 * 1.1) ∧
    629 < (getInitialViewport 800 600).scale ∧
    (getInitialViewport 800 600).scale < 630 ∧
    62 < (getInitialViewport 800 600).scale - 566.67 := by
  have hub := sqrt75_ub
  have hlb := sqrt75_lb
  have hge := sqrt75_ge
  have hpos := sqrt75_pos
  have hscale : (getInitialViewport 800 600).scale =
      min (800 / (1 * 1.1)) (600 / (Real.sqrt 0.75 * 1.1)) := by
    simp only [getInitialViewport, INITIAL_VIEWPORT_PADDING]
  have hmin : min ((800 : ℝ) / (1 * 1.1)) (600 / (Real.sqrt 0.75 * 1.1)) =
      600 / (Real.sqrt 0.75 * 1.1) := by
    refine min_eq_right ?_
    rw [div_le_div_iff (by positivity) (by norm_num)]
    nlinarith
  rw [hscale, hmin]
  have h1 : (629 : ℝ) < 600 / (Real.sqrt 0.75 * 1.1) := by
    rw [lt_div_iff (by positivity)]
    nlinarith
  have h2 : (600 : ℝ) / (Real.sqrt 0.75 * 1.1) < 630 := by
    rw [div_lt_iff (by positivity)]
    nlinarith
  exact ⟨rfl, h1, h2, by linarith⟩

/-- C5 amended: `getInitialViewport(width, height)` returns
`x = 0.5`, `y = √0.75 / 2 ≈ 0.433` and
`scale = min(width / (1·1.1), height / (√0.75·1.1))`; for an 800×600
canvas the scale is `600 / (√0.75·1.1) ≈ 629.8` (not 566.67). -/
theorem getInitialViewport_spec :
    (∀ width height : ℝ, getInitialViewport width height =
      ⟨0.5, Real.sqrt 0.75 / 2,
        min (width / (1 * 1.1)) (height / (Real.sqrt 0.75 * 1.1))⟩) ∧
    (getInitialViewport 800 600).x = 0.5 ∧
    (getInitialViewport 800 600).y = Real.sqrt 0.75 / 2 ∧
    (getInitialViewport 800 600).scale = 600 / (Real.sqrt 0.75 * 1.1) ∧
    629 < (getInitialViewport 800 600).scale ∧
    (getInitialViewport 800 600).scale < 630 ∧
    |(getInitialViewport 800 600).y - 0.433| < 0.001 := by
  have hub := sqrt75_ub
  have hlb := sqrt75_lb
  have hge := sqrt75_ge
  have hpos := sqrt75_pos
  have hform : ∀ width height : ℝ, getInitialViewport width height =
      ⟨0.5, Real.sqrt 0.75 / 2,
        min (width / (1 * 1.1)) (height / (Real.sqrt 0.75 * 1.1))⟩ := by
    intro width height
    simp only [getInitialViewport, INITIAL_VIEWPORT_PADDING]
  have hmin : min ((800 : ℝ) / (1 * 1.1)) (600 / (Real.sqrt 0.75 * 1.1)) =
      600 / (Real.sqrt 0.75 * 1.1) := by
    refine min_eq_right ?_
    rw [div_le_div_iff (by positivity) (by norm_num)]
    nlinarith
  have hscale : (getInitialViewport 800 600).scale =
      600 / (Real.sqrt 0.75 * 1.1) := by
    rw [hform 800 600]
    exact hmin
  refine ⟨hform, by rw [hform 800 600], by rw [hform 800 600], hscale, ?_, ?_, ?_⟩
  · rw [hscale, lt_div_iff (by positivity)]
    nlinarith
  · rw [hscale, div_lt_iff (by positivity)]
    nlinarith
  · rw [hform 800 600]
    rw [abs_lt]
    constructor <;> nlinarith

/-- C4: cursor-anchored zoom by `d` then by `-d` at the same screen point
restores the viewport exactly (over ℝ), and the anchored screen point
maps to the same world point before and after the zoom. -/
theorem handleWheel_inverse (vp : Viewport) (cw ch mx my d : ℝ)
    (hs : 0 < vp.scale) :
    handleWheel (handleWheel vp cw ch mx my d) cw ch mx my (-d) = vp ∧
    toWorld (handleWheel vp cw ch mx my d) cw ch mx my =
      toWorld vp cw ch mx my := by
  obtain ⟨vx, vy, vs⟩ := vp
  have hs' : (0 : ℝ) < vs := hs
  have hf : (0 : ℝ) < (0.998 : ℝ) ^ d := Real.rpow_pos_of_pos (by norm_num) d
  have hinv : (0.998 : ℝ) ^ (-d) = ((0.998 : ℝ) ^ d)⁻¹ :=
    Real.rpow_neg (by norm_num) d
  have hvs : vs ≠ 0 := ne_of_gt hs'
  have hfne : (0.998 : ℝ) ^ d ≠ 0 := ne_of_gt hf
  simp only [handleWheel, toWorld]
  rw [hinv]
  refine ⟨?_, ?_⟩
  · simp only [Viewport.mk.injEq]
    refine ⟨?_, ?_, ?_⟩ <;> (field_simp; try ring)
  · simp only [Point.mk.injEq]
    constructor <;> (field_simp; try ring)

/-- Witness for C4 at a concrete viewport and wheel delta. -/
theorem handleWheel_inverse_witness :
    (0 : ℝ) < (Viewport.mk 0 0 1).scale ∧
    (handleWheel (handleWheel ⟨0, 0, 1⟩ 1 1 0 0 2) 1 1 0 0 (-2) = ⟨0, 0, 1⟩ ∧
     toWorld (handleWheel ⟨0, 0, 1⟩ 1 1 0 0 2) 1 1 0 0 =
       toWorld ⟨0, 0, 1⟩ 1 1 0 0) :=
  ⟨by norm_num, handleWheel_inverse ⟨0, 0, 1⟩ 1 1 0 0 2 (by norm_num)⟩

/-- A positive-size canvas yields a positive initial scale. -/
theorem getInitialViewport_scale_pos {w h : ℝ} (hw : 0 < w) (hh : 0 < h) :
    0 < (getInitialViewport w h).scale := by
  have hs := sqrt75_pos
  show 0 < min (w / (1 * INITIAL_VIEWPORT_PADDING))
    (h / (Real.sqrt 0.75 * INITIAL_VIEWPORT_PADDING))
  simp only [INITIAL_VIEWPORT_PADDING]
  exact lt_min (by positivity) (by positivity)

/-- `cancel` does not touch the viewport. -/
theorem cancel_viewport (s : AppState) : (cancel s).viewport = s.viewport := by
  unfold cancel
  split <;> rfl

/-- A sample app state used by concrete witnesses. -/
def sampleState : AppState :=
  ⟨[], ⟨0, 0⟩, ⟨0, 0, 1⟩, false, none, [], ⟨0, 0⟩, none⟩

/-- C3: starting from a viewport with positive scale, wheel zoom, drag
panning, initial-viewport recomputation (for a positive-size canvas) and
reset all yield a positive scale; and zooming is (vacuously over ℝ) a
no-op whenever the computed new scale would be nonpositive, since
`scale * 0.998 ^ d` is always positive. -/
theorem viewport_scale_positive (vp : Viewport) (cw ch mx my d dx dy w h : ℝ)
    (s : AppState) (s0 t0 : ℝ) (hs : 0 < vp.scale)
    (hvs : 0 < s.viewport.scale) :
    0 < (handleWheel vp cw ch mx my d).scale ∧
    (vp.scale * (0.998 : ℝ) ^ d ≤ 0 → handleWheel vp cw ch mx my d = vp) ∧
    (handleMouseMove vp dx dy).scale = vp.scale ∧
    (0 < w → 0 < h → 0 < (getInitialViewport w h).scale) ∧
    0 < (reset s w h s0 t0).viewport.scale := by
  have hf : (0 : ℝ) < (0.998 : ℝ) ^ d := Real.rpow_pos_of_pos (by norm_num) d
  have hpos : 0 < vp.scale * (0.998 : ℝ) ^ d := mul_pos hs hf
  refine ⟨hpos, fun hle => absurd hpos (by linarith), rfl,
    fun hw hh => getInitialViewport_scale_pos hw hh, ?_⟩
  show 0 < (if 0 < w ∧ 0 < h then
      { cancel s with viewport := getInitialViewport w h }
    else cancel s).viewport.scale
  split
  · next hwh => exact getInitialViewport_scale_pos hwh.1 hwh.2
  · rw [cancel_viewport]
    exact hvs

/-- Witness for C3 at a concrete viewport and app state. -/
theorem viewport_scale_positive_witness :
    (0 : ℝ) < (Viewport.mk 0 0 1).scale ∧ 0 < sampleState.viewport.scale ∧
    (0 < (handleWheel ⟨0, 0, 1⟩ 1 1 0 0 2).scale ∧
     ((Viewport.mk 0 0 1).scale * (0.998 : ℝ) ^ (2 : ℝ) ≤ 0 →
       handleWheel ⟨0, 0, 1⟩ 1 1 0 0 2 = ⟨0, 0, 1⟩) ∧
     (handleMouseMove ⟨0, 0, 1⟩ 3 4).scale = (Viewport.mk 0 0 1).scale ∧
     ((0 : ℝ) < 800 → (0 : ℝ) < 600 →
       0 < (getInitialViewport 800 600).scale) ∧
     0 < (reset sampleState 800 600 0 0).viewport.scale) :=
  ⟨by norm_num, by norm_num [sampleState],
    viewport_scale_positive ⟨0, 0, 1⟩ 1 1 0 0 2 3 4 800 600 sampleState 0 0
      (by norm_num) (by norm_num [sampleState])⟩

/-- The barycentric fallback always lands inside the triangle. -/
theorem getInitialPoint_inTriangle {s0 t0 : ℝ} (h0 : 0 ≤ s0) (h1 : s0 ≤ 1)
    (h2 : 0 ≤ t0) (h3 : t0 ≤ 1) :
    isPointInTriangle (getInitialPoint s0 t0)
      (VERTICES 0) (VERTICES 1) (VERTICES 2) := by
  have hq := sqrt75_pos
  unfold getInitialPoint isPointInTriangle
  split_ifs with hst <;>
    (rintro ⟨h | h | h, -⟩ <;> (simp only [dsign, VERTICES] at h; nlinarith))

/-- Any point accepted by the rejection-sampling loop is in the triangle. -/
theorem seedAttempt_some_inTriangle (r : ℕ → ℝ) (xMin yMin wW wH : ℝ)
    (fuel : ℕ) :
    ∀ i p, seedAttempt r xMin yMin wW wH i fuel = some p →
      isPointInTriangle p (VERTICES 0) (VERTICES 1) (VERTICES 2) := by
  induction fuel with
  | zero => intro i p h; simp [seedAttempt] at h
  | succ fuel ih =>
    intro i p h
    simp only [seedAttempt] at h
    by_cases hacc : isPointInTriangle (attemptDraw r xMin yMin wW wH i)
        (VERTICES 0) (VERTICES 1) (VERTICES 2)
    · rw [if_pos hacc] at h
      cases h
      exact hacc
    · rw [if_neg hacc] at h
      exact ih (i + 1) p h

/-- When every attempt in range is rejected, the loop returns `none`. -/
theorem seedAttempt_all_rejected (r : ℕ → ℝ) (xMin yMin wW wH : ℝ)
    (fuel : ℕ) :
    ∀ i, (∀ k, i ≤ k → k < i + fuel →
        ¬isPointInTriangle (attemptDraw r xMin yMin wW wH k)
          (VERTICES 0) (VERTICES 1) (VERTICES 2)) →
      seedAttempt r xMin yMin wW wH i fuel = none := by
  induction fuel with
  | zero => intro i _; simp [seedAttempt]
  | succ fuel ih =>
    intro i hall
    simp only [seedAttempt]
    rw [if_neg (hall i le_rfl (by omega))]
    exact ih (i + 1) fun k hk1 hk2 => hall k (by omega) (by omega)

/-- The loop returns the first accepted draw. -/
theorem seedAttempt_first (r : ℕ → ℝ) (xMin yMin wW wH : ℝ) (fuel : ℕ) :
    ∀ i j, i ≤ j → j < i + fuel →
      isPointInTriangle (attemptDraw r xMin yMin wW wH j)
        (VERTICES 0) (VERTICES 1) (VERTICES 2) →
      (∀ k, i ≤ k → k < j →
        ¬isPointInTriangle (attemptDraw r xMin yMin wW wH k)
          (VERTICES 0) (VERTICES 1) (VERTICES 2)) →
      seedAttempt r xMin yMin wW wH i fuel =
        some (attemptDraw r xMin yMin wW wH j) := by
  induction fuel with
  | zero => intro i j hij hlt _ _; omega
  | succ fuel ih =>
    intro i j hij hlt hacc hbefore
    by_cases heq : j = i
    · subst heq
      simp only [seedAttempt]
      rw [if_pos hacc]
    · have hi := hbefore i le_rfl (by omega)
      simp only [seedAttempt]
      rw [if_neg hi]
      exact ih (i + 1) j (by omega) (by omega) hacc
        fun k hk1 hk2 => hbefore k (by omega) hk2

/-- The behavior C6 ascribes to `findSeedPoint` at given inputs: no-op
exactly when the collection is nonempty and the current point is in the
visible rectangle; otherwise first-accepted draw of at most 100, the
barycentric fallback after 100 rejections, and an in-triangle result. -/
def FindSeedSpec (pointsLen : ℕ) (vp : Viewport) (cw ch : ℝ) (r : ℕ → ℝ)
    (current : Point) : Prop :=
  (¬(pointsLen = 0 ∨
      ¬isPointInView (vp.x - cw / vp.scale / 2) (vp.x + cw / vp.scale / 2)
        (vp.y - ch / vp.scale / 2) (vp.y + ch / vp.scale / 2) current) →
    findSeedPoint pointsLen vp cw ch r current = current) ∧
  ((pointsLen = 0 ∨
      ¬isPointInView (vp.x - cw / vp.scale / 2) (vp.x + cw / vp.scale / 2)
        (vp.y - ch / vp.scale / 2) (vp.y + ch / vp.scale / 2) current) →
    (∀ j < 100,
      isPointInTriangle
        (attemptDraw r (vp.x - cw / vp.scale / 2) (vp.y - ch / vp.scale / 2)
          (cw / vp.scale) (ch / vp.scale) j)
        (VERTICES 0) (VERTICES 1) (VERTICES 2) →
      (∀ k < j,
        ¬isPointInTriangle
          (attemptDraw r (vp.x - cw / vp.scale / 2) (vp.y - ch / vp.scale / 2)
            (cw / vp.scale) (ch / vp.scale) k)
          (VERTICES 0) (VERTICES 1) (VERTICES 2)) →
      findSeedPoint pointsLen vp cw ch r current =
        attemptDraw r (vp.x - cw / vp.scale / 2) (vp.y - ch / vp.scale / 2)
          (cw / vp.scale) (ch / vp.scale) j) ∧
    ((∀ k < 100,
        ¬isPointInTriangle
          (attemptDraw r (vp.x - cw / vp.scale / 2) (vp.y - ch / vp.scale / 2)
            (cw / vp.scale) (ch / vp.scale) k)
          (VERTICES 0) (VERTICES 1) (VERTICES 2)) →
      findSeedPoint pointsLen vp cw ch r current =
        getInitialPoint (r 200) (r 201)) ∧
    isPointInTriangle (findSeedPoint pointsLen vp cw ch r current)
      (VERTICES 0) (VERTICES 1) (VERTICES 2))

/-- C6: seed reacquisition triggers exactly when the point collection is
empty or the current point is outside the visible world rectangle; when
triggered it returns the first of at most 100 uniform draws that lies in
the triangle, falls back to a barycentric sample after 100 rejections,
and always produces an in-triangle seed. -/
theorem findSeedPoint_spec (pointsLen : ℕ) (vp : Viewport) (cw ch : ℝ)
    (r : ℕ → ℝ) (current : Point) (hr : ∀ n, 0 ≤ r n ∧ r n ≤ 1) :
    FindSeedSpec pointsLen vp cw ch r current := by
  unfold FindSeedSpec
  constructor
  · intro hns
    unfold findSeedPoint
    rw [if_neg hns]
  · intro htrig
    refine ⟨?_, ?_, ?_⟩
    · intro j hj hacc hbefore
      unfold findSeedPoint
      rw [if_pos htrig,
        seedAttempt_first r (vp.x - cw / vp.scale / 2)
          (vp.y - ch / vp.scale / 2) (cw / vp.scale) (ch / vp.scale) 100 0 j
          (Nat.zero_le j) (by omega) hacc fun k _ hk2 => hbefore k hk2]
    · intro hall
      unfold findSeedPoint
      rw [if_pos htrig,
        seedAttempt_all_rejected r (vp.x - cw / vp.scale / 2)
          (vp.y - ch / vp.scale / 2) (cw / vp.scale) (ch / vp.scale) 100 0
          fun k _ hk2 => hall k (by omega)]
    · unfold findSeedPoint
      rw [if_pos htrig]
      rcases hsa : seedAttempt r (vp.x - cw / vp.scale / 2)
          (vp.y - ch / vp.scale / 2) (cw / vp.scale) (ch / vp.scale) 0 100
        with _ | p
      · exact getInitialPoint_inTriangle (hr 200).1 (hr 200).2
          (hr 201).1 (hr 201).2
      · exact seedAttempt_some_inTriangle r (vp.x - cw / vp.scale / 2)
          (vp.y - ch / vp.scale / 2) (cw / vp.scale) (ch / vp.scale) 100 0 p hsa

/-- Witness for C6 at a concrete triggered configuration. -/
theorem findSeedPoint_spec_witness :
    FindSeedSpec 0 ⟨0.5, 0.5, 1⟩ 1 1 (fun _ => 0) ⟨0, 0⟩ :=
  findSeedPoint_spec 0 ⟨0.5, 0.5, 1⟩ 1 1 (fun _ => 0) ⟨0, 0⟩
    fun _ => ⟨le_refl 0, zero_le_one⟩

/-- The `generateInstantly` loop computes the chaos-game orbit: final
current point `chaosIter (j + m)` and the generated points in order. -/
theorem genLoop_eq (choice : ℕ → Fin 3) (seed : Point) (m : ℕ) :
    ∀ j, genLoop choice (chaosIter choice seed j) j m =
      (chaosIter choice seed (j + m),
        (List.range m).map fun k => chaosIter choice seed (j + k + 1)) := by
  induction m with
  | zero => intro j; simp [genLoop]
  | succ m ih =>
    intro j
    have hnext : stepPoint (chaosIter choice seed j) (VERTICES (choice j)) =
        chaosIter choice seed (j + 1) := rfl
    simp only [genLoop, hnext, ih (j + 1), Prod.mk.injEq]
    refine ⟨by congr 1; omega, ?_⟩
    rw [List.range_succ_eq_map, List.map_cons, List.map_map]
    refine List.cons_eq_cons.mpr ⟨by norm_num, ?_⟩
    refine List.map_congr_left fun k _ => ?_
    simp only [Function.comp_apply]
    congr 1
    omega

/-- The behavior C7 ascribes to `generateInstantly`: seed via
`findSeedPoint`, produce exactly `n` orbit points appended after the old
collection in generation order, and persist the final current point. -/
def GenInstantSpec (points : List Point) (current0 : Point) (vp : Viewport)
    (cw ch : ℝ) (r : ℕ → ℝ) (choice : ℕ → Fin 3) (n : ℕ) : Prop :=
  generateInstantly points current0 vp cw ch r choice n =
    (points ++
      trajPoints choice (findSeedPoint points.length vp cw ch r current0) n,
     chaosIter choice (findSeedPoint points.length vp cw ch r current0) n) ∧
  (trajPoints choice (findSeedPoint points.length vp cw ch r current0)
    n).length = n ∧
  (∀ k < n,
    (trajPoints choice (findSeedPoint points.length vp cw ch r current0)
      n)[k]? =
    some (chaosIter choice (findSeedPoint points.length vp cw ch r current0)
      (k + 1)))

/-- C7: for `n ∈ {100, 1000, 10000}`, `generateInstantly` seeds via
`findSeedPoint`, iterates the chaos-game step exactly `n` times, appends
the `n` generated points in order as one update after the unchanged
prefix, and persists the final current point. -/
theorem generateInstantly_spec (points : List Point) (current0 : Point)
    (vp : Viewport) (cw ch : ℝ) (r : ℕ → ℝ) (choice : ℕ → Fin 3) (n : ℕ)
    (hn : n = 100 ∨ n = 1000 ∨ n = 10000) :
    GenInstantSpec points current0 vp cw ch r choice n := by
  have hseed := genLoop_eq choice
    (findSeedPoint points.length vp cw ch r current0) n 0
  rw [show chaosIter choice
      (findSeedPoint points.length vp cw ch r current0) 0 =
      findSeedPoint points.length vp cw ch r current0 from rfl] at hseed
  simp only [Nat.zero_add] at hseed
  unfold GenInstantSpec
  refine ⟨?_, ?_, ?_⟩
  · unfold generateInstantly trajPoints
    show (points ++
        (genLoop choice (findSeedPoint points.length vp cw ch r current0)
          0 n).2,
      (genLoop choice (findSeedPoint points.length vp cw ch r current0)
        0 n).1) = _
    rw [hseed]
  · simp [trajPoints]
  · intro k hk
    simp [trajPoints, List.getElem?_map, List.getElem?_range hk]

/-- Witness for C7 at `n = 100` and concrete inputs. -/
theorem generateInstantly_spec_witness :
    GenInstantSpec [] ⟨0, 0⟩ ⟨0.5, 0.5, 1⟩ 1 1 (fun _ => 0) (fun _ => 0)
      100 :=
  generateInstantly_spec [] ⟨0, 0⟩ ⟨0.5, 0.5, 1⟩ 1 1 (fun _ => 0)
    (fun _ => 0) 100 (Or.inl rfl)

/-- Closed form of the highlight queue after `n` ticks from empty: the
last `min n 4` highlighted vertices, newest first, with lives 4, 3, 2, 1. -/
theorem highlightsAfter_closedForm (choice : ℕ → Fin 3) (n : ℕ) :
    highlightsAfter choice n = (List.range (min n 4)).map
      fun k => ⟨VERTICES (choice (n - 1 - k)), 4 - (k : ℤ)⟩ := by
  induction n with
  | zero => rfl
  | succ n ih =>
    show highlightUpdate (VERTICES (choice n)) (highlightsAfter choice n) = _
    rw [ih]
    rcases n with _ | _ | _ | _ | m <;>
      simp [highlightUpdate, List.range_succ]

/-- C10: after every animation tick the highlight queue holds at most 4
entries, newest first with lives 4, 3, 2, 1; a vertex highlighted at tick
`i` is present for exactly the 4 ticks `i+1 .. i+4` (its initial life of
5 is decremented in the very tick that adds it) and is pruned by tick
`i+5`. -/
theorem highlight_queue_spec (choice : ℕ → Fin 3) :
    (∀ count t, count < 100 →
      (animTick choice count t).highlightedVertices =
        highlightUpdate (VERTICES (choice count)) t.highlightedVertices) ∧
    (∀ n, highlightsAfter choice n = (List.range (min n 4)).map
      fun k => ⟨VERTICES (choice (n - 1 - k)), 4 - (k : ℤ)⟩) ∧
    (∀ n, (highlightsAfter choice n).length = min n 4) ∧
    (∀ n, (highlightsAfter choice n).length ≤ 4) ∧
    (∀ n hv, hv ∈ highlightsAfter choice n → 1 ≤ hv.life ∧ hv.life ≤ 4) ∧
    (∀ i k, k < 4 → (highlightsAfter choice (i + 1 + k))[k]? =
      some ⟨VERTICES (choice i), 4 - (k : ℤ)⟩) ∧
    (∀ i, (highlightsAfter choice (i + 5))[4]? = none) := by
  refine ⟨?_, highlightsAfter_closedForm choice, ?_, ?_, ?_, ?_, ?_⟩
  · intro count t hcount
    unfold animTick
    rw [if_neg (by omega)]
  · intro n
    rw [highlightsAfter_closedForm]
    simp
  · intro n
    rw [highlightsAfter_closedForm]
    simp
  · intro n hv hmem
    rw [highlightsAfter_closedForm] at hmem
    simp only [List.mem_map, List.mem_range] at hmem
    obtain ⟨k, hk, rfl⟩ := hmem
    refine ⟨?_, ?_⟩
    · show (1 : ℤ) ≤ 4 - (k : ℤ)
      omega
    · show (4 : ℤ) - (k : ℤ) ≤ 4
      omega
  · intro i k hk
    rw [highlightsAfter_closedForm]
    rw [List.getElem?_map, List.getElem?_range (by omega)]
    simp only [Option.map_some']
    rw [show i + 1 + k - 1 - k = i from by omega]
  · intro i
    rw [highlightsAfter_closedForm]
    refine List.getElem?_eq_none ?_
    simp

/-- Witness for C10 at concrete tick counts. -/
theorem highlight_queue_spec_witness :
    (highlightsAfter (fun _ => 0) (0 + 1 + 1))[1]? =
      some ⟨VERTICES ((fun _ => (0 : Fin 3)) 0), 4 - ((1 : ℕ) : ℤ)⟩ ∧
    (highlightsAfter (fun _ => 0) (0 + 5))[4]? = none :=
  ⟨(highlight_queue_spec (fun _ => 0)).2.2.2.2.2.1 0 1 (by norm_num),
   (highlight_queue_spec (fun _ => 0)).2.2.2.2.2.2 0⟩

/-- After `cancel` there is never a pending scheduled tick. -/
theorem cancel_pending (s : AppState) : (cancel s).pending = none := by
  unfold cancel
  split
  · next h => exact h
  · rfl

/-- After `reset` there is never a pending scheduled tick. -/
theorem reset_pending (s : AppState) (cw ch s0 t0 : ℝ) :
    (reset s cw ch s0 t0).pending = none := by
  unfold reset
  split_ifs <;> exact cancel_pending s

/-- A state with no pending tick is a fixed point of the event loop. -/
theorem fireTick_of_pending_none (choice : ℕ → Fin 3) (s : AppState)
    (h : s.pending = none) : fireTick choice s = s := by
  unfold fireTick
  rw [h]

/-- C9: reset cancels the pending scheduled tick (first, by definition of
`reset`), leaves the controller idle synchronously, and afterwards no
stray tick can ever fire again: every further event-loop step is the
identity, so the point collection never changes after the reset returns;
and `cancel` on an idle state is a no-op. -/
theorem reset_cancel_spec (s : AppState) (cw ch s0 t0 : ℝ)
    (choice : ℕ → Fin 3) :
    (reset s cw ch s0 t0).pending = none ∧
    (reset s cw ch s0 t0).isGenerating = false ∧
    (reset s cw ch s0 t0).points = [] ∧
    (reset s cw ch s0 t0).animationStep = none ∧
    (reset s cw ch s0 t0).highlightedVertices = [] ∧
    (∀ k, (fireTick choice)^[k] (reset s cw ch s0 t0) =
      reset s cw ch s0 t0) ∧
    (∀ k, ((fireTick choice)^[k] (reset s cw ch s0 t0)).points.length =
      (reset s cw ch s0 t0).points.length) ∧
    (s.pending = none → cancel s = s) := by
  have hiter : ∀ k, (fireTick choice)^[k] (reset s cw ch s0 t0) =
      reset s cw ch s0 t0 := by
    intro k
    induction k with
    | zero => rfl
    | succ k ih =>
      rw [Function.iterate_succ_apply', ih,
        fireTick_of_pending_none choice _ (reset_pending s cw ch s0 t0)]
  refine ⟨reset_pending s cw ch s0 t0, ?_, ?_, ?_, ?_, hiter,
    fun k => by rw [hiter k], fun h => by unfold cancel; rw [if_pos h]⟩ <;>
    (unfold reset; split_ifs <;> rfl)

/-- Witness for C9 at a concrete idle state. -/
theorem reset_cancel_spec_witness :
    sampleState.pending = none ∧ cancel sampleState = sampleState ∧
    (reset sampleState 800 600 0 0).pending = none :=
  ⟨rfl,
   (reset_cancel_spec sampleState 800 600 0 0 fun _ => 0).2.2.2.2.2.2.2 rfl,
   (reset_cancel_spec sampleState 800 600 0 0 fun _ => 0).1⟩

/-- A tick with `count < 100` appends one point, publishes the animation
step, updates highlights, advances the local current point, and schedules
tick `count + 1`. -/
theorem animTick_lt (choice : ℕ → Fin 3) (count : ℕ) (s : AppState)
    (h : count < 100) :
    animTick choice count s =
      { s with
        animationStep := some ⟨s.localCurrent, VERTICES (choice count),
          stepPoint s.localCurrent (VERTICES (choice count))⟩,
        highlightedVertices :=
          highlightUpdate (VERTICES (choice count)) s.highlightedVertices,
        points :=
          s.points ++ [stepPoint s.localCurrent (VERTICES (choice count))],
        localCurrent := stepPoint s.localCurrent (VERTICES (choice count)),
        pending := some (count + 1) } := by
  unfold animTick
  rw [if_neg (by omega)]

/-- A tick with `count ≥ 100` only finishes the run: clear the generating
flag and the transients, persist the local current point. -/
theorem animTick_ge (choice : ℕ → Fin 3) (count : ℕ) (s : AppState)
    (h : 100 ≤ count) :
    animTick choice count s =
      { s with isGenerating := false, animationStep := none,
               highlightedVertices := [],
               currentPointRef := s.localCurrent } := by
  unfold animTick
  rw [if_pos h]

/-- Invariant of the tick chain: running from `step(count)` with
`count + n = 100` appends `n` points, ends idle with cleared transients,
persists the final local current point, and consumes every schedule. -/
theorem runFrom_spec (choice : ℕ → Fin 3) (n : ℕ) :
    ∀ count s, count + n = 100 →
      (runFrom choice count s).points.length = s.points.length + n ∧
      (runFrom choice count s).isGenerating = false ∧
      (runFrom choice count s).animationStep = none ∧
      (runFrom choice count s).highlightedVertices = [] ∧
      (runFrom choice count s).currentPointRef =
        (runFrom choice count s).localCurrent ∧
      (runFrom choice count s).pending =
        (if n = 0 then s.pending else none) := by
  induction n with
  | zero =>
    intro count s h
    have hc : count = 100 := by omega
    subst hc
    unfold runFrom
    rw [if_pos (by omega : 100 ≤ 100), animTick_ge choice 100 s (by omega)]
    simp
  | succ n ih =>
    intro count s h
    have hlt : ¬100 ≤ count := by omega
    unfold runFrom
    rw [if_neg hlt]
    obtain ⟨h1, h2, h3, h4, h5, h6⟩ :=
      ih (count + 1) { animTick choice count s with pending := none }
        (by omega)
    refine ⟨?_, h2, h3, h4, h5, ?_⟩
    · rw [h1, animTick_lt choice count s (by omega)]
      simp only [List.length_append, List.length_cons, List.length_nil]
      omega
    · rw [h6]
      split <;> rfl

/-- The run observations C2 ascribes (as amended) to a full animation
run: exactly 100 points appended, one per point-producing tick, ending
idle with cleared transients and the final current point persisted; a
tick with `count < 100` always schedules tick `count + 1` (including
`count = 99`), and the extra scheduled tick at `count = 100` is the one
that performs the idle transition. -/
def AnimRunSpec (choice : ℕ → Fin 3) (cw ch : ℝ) (r : ℕ → ℝ)
    (s : AppState) : Prop :=
  (animateGeneration choice cw ch r s).points.length =
    s.points.length + 100 ∧
  (animateGeneration choice cw ch r s).isGenerating = false ∧
  (animateGeneration choice cw ch r s).animationStep = none ∧
  (animateGeneration choice cw ch r s).highlightedVertices = [] ∧
  (animateGeneration choice cw ch r s).pending = none ∧
  (animateGeneration choice cw ch r s).currentPointRef =
    (animateGeneration choice cw ch r s).localCurrent ∧
  (∀ count t, count < 100 →
    (animTick choice count t).points =
      t.points ++ [stepPoint t.localCurrent (VERTICES (choice count))] ∧
    (animTick choice count t).pending = some (count + 1) ∧
    (animTick choice count t).isGenerating = t.isGenerating) ∧
  (∀ count t, 100 ≤ count →
    animTick choice count t =
      { t with isGenerating := false, animationStep := none,
               highlightedVertices := [],
               currentPointRef := t.localCurrent })

/-- C2 (amended): a full animation run started from idle performs 100
point-producing ticks plus one final scheduled finishing tick; it appends
exactly 100 points one per tick, returns to idle, persists the final
current point, and clears the animation step and highlight queue.  Each
tick with `count < 100` (including `count = 99`) schedules
`tick(count + 1)`; the idle transition happens in the scheduled
`tick(100)`, not in `tick(99)`. -/
theorem animateGeneration_run (choice : ℕ → Fin 3) (cw ch : ℝ) (r : ℕ → ℝ)
    (s : AppState) (hIdle : s.isGenerating = false ∧ s.pending = none) :
    AnimRunSpec choice cw ch r s := by
  have heq : animateGeneration choice cw ch r s =
      runFrom choice 0
        { s with
          isGenerating := true,
          animationStep := none,
          localCurrent := findSeedPoint s.points.length s.viewport cw ch r
            s.currentPointRef } := rfl
  obtain ⟨h1, h2, h3, h4, h5, h6⟩ := runFrom_spec choice 100 0
    { s with
      isGenerating := true,
      animationStep := none,
      localCurrent := findSeedPoint s.points.length s.viewport cw ch r
        s.currentPointRef } (by omega)
  unfold AnimRunSpec
  rw [heq]
  refine ⟨h1, h2, h3, h4, by rw [h6]; rfl, h5, ?_, ?_⟩
  · intro count t hcount
    rw [animTick_lt choice count t hcount]
    exact ⟨rfl, rfl, rfl⟩
  · intro count t hcount
    exact animTick_ge choice count t hcount

/-- C2 counterexample: at `count = 99` (where `count + 1 < 100` fails)
the code does not transition to idle within that tick: it schedules
`tick(100)`, keeps the generating flag, and publishes an animation step. -/
theorem animateGeneration_tick99_counterexample :
    ¬(99 + 1 < 100) ∧
    (animTick (fun _ => 0) 99
      ⟨[], ⟨0, 0⟩, ⟨0, 0, 1⟩, true, none, [], ⟨0, 0⟩, none⟩).pending =
      some 100 ∧
    (animTick (fun _ => 0) 99
      ⟨[], ⟨0, 0⟩, ⟨0, 0, 1⟩, true, none, [], ⟨0, 0⟩, none⟩).isGenerating =
      true ∧
    (animTick (fun _ => 0) 99
      ⟨[], ⟨0, 0⟩, ⟨0, 0, 1⟩, true, none, [], ⟨0, 0⟩, none⟩).animationStep ≠
      none := by
  refine ⟨by omega, ?_, ?_, ?_⟩ <;> simp [animTick]

/-- Witness for C2 at a concrete idle start state. -/
theorem animateGeneration_run_witness :
    AnimRunSpec (fun _ => 0) 1 1 (fun _ => 0) sampleState :=
  animateGeneration_run (fun _ => 0) 1 1 (fun _ => 0) sampleState
    ⟨rfl, rfl⟩

end Sierpinski

end
